import Mathlib

/-!
Bravetools: unit deployment helpers.

A shallow embedding of `platform/helpers.go` and `commands/deploy.go`.

The helpers drive a container hypervisor through a capability surface
(`ImportImage`, `LaunchFromImage`, `Start`, `Delete`, `DeleteImage`, `Exec`,
`Push`, ...) that lives outside these files.  Every call that crosses that
surface is recorded, together with what it returned, as an `Event` of a
`Trace`; the answers themselves come from a `World`, whose every operation may
depend on the whole history of earlier events.  A helper is then a function
from the trace so far to its Go return value and the extended trace.
-/

namespace Bravetools

/-! ## Data model -/

/-- A Go `error` value: `none` is `nil`, `some m` an error whose `Error()` is `m`. -/
abbrev GoError := Option String

/-- Go `errors.New`. -/
def errorsNew (m : String) : GoError := some m

/-- An error of package `os`: its text and whether `os.IsNotExist` holds of it. -/
structure OsError where
  msg : String
  notExist : Bool
  deriving DecidableEq, Repr

/-- Go `os.IsNotExist`, which is false of the `nil` error. -/
def IsNotExist : Option OsError → Bool
  | none => false
  | some e => e.notExist

/-- Go `os.ModeDir`, bit 31 of a file mode. -/
def ModeDir : Nat := 2 ^ 31

/-- Go `os.ModeSymlink`, bit 27 of a file mode. -/
def ModeSymlink : Nat := 2 ^ 27

/-- What `os.Lstat` reports of a path: the file mode bits. -/
structure FileInfo where
  mode : Nat
  deriving DecidableEq, Repr

/-- Go `FileInfo.Mode`. -/
def FileInfo.Mode (fi : FileInfo) : Nat := fi.mode

/-- Go `FileInfo.IsDir`, short for `Mode().IsDir()`. -/
def FileInfo.IsDir (fi : FileInfo) : Bool := fi.mode &&& ModeDir != 0

/-- Modelled from the spec: the remote target handle, a protocol, endpoint and
credential shared read-only by all hypervisor calls (type `Remote` is declared
outside the embedded files). -/
structure Remote where
  protocol : String
  endpoint : String
  credential : String
  deriving DecidableEq, Repr

/-- The `Base` section of a Bravefile. -/
structure Base where
  Image : String
  deriving DecidableEq, Repr

/-- The `Resources` of a service. -/
structure Resources where
  CPU : String
  RAM : String
  deriving DecidableEq, Repr

/-- The `PlatformService` section of a Bravefile. -/
structure PlatformService where
  Name : String
  Version : String
  Image : String
  IP : String
  Ports : List String
  Resources : Resources
  deriving DecidableEq, Repr

/-- The fields of `shared.Bravefile` the embedded code reads or writes. -/
structure Bravefile where
  Base : Base
  PlatformService : PlatformService
  deriving DecidableEq, Repr

/-- A copy directive, `shared.CopyCommand`. -/
structure CopyCommand where
  Source : String
  Target : String
  Action : String
  deriving DecidableEq, Repr

/-- A run directive, `shared.RunCommand`. -/
structure RunCommand where
  Command : String
  Args : List String
  Content : String
  deriving DecidableEq, Repr

/-- A Go `map[string]string`, as the list of its bindings (keys distinct). -/
abbrev GoMap := List (String × String)

/-- Go `m[k] = v`: overwrite the binding of `k`, or add one. -/
def GoMap.set : GoMap → String → String → GoMap
  | [], k, v => [(k, v)]
  | (k0, v0) :: m, k, v => if k0 = k then (k, v) :: m else (k0, v0) :: GoMap.set m k v

/-- Go `m[k]`, with `none` for an absent key. -/
def GoMap.get : GoMap → String → Option String
  | [], _ => none
  | (k0, v0) :: m, k => if k0 = k then some v0 else GoMap.get m k

/-- The fields of `BraveHost` the helpers read. -/
structure BraveHost where
  Remote : Remote
  deriving DecidableEq, Repr

/-! ## Events and the world -/

/-- One call across the capability surface, with its arguments and its result. -/
inductive Event where
  | ImportImage (path imageAlias : String) (remote : Remote) (fingerprint : String) (err : GoError)
  | LaunchFromImage (image name : String) (remote : Remote) (err : GoError)
  | Start (name : String) (remote : Remote) (err : GoError)
  | Delete (name : String) (remote : Remote) (err : GoError)
  | DeleteImage (fingerprint : String) (remote : Remote) (err : GoError)
  | GetBravefileFromGitHub (path : String) (result : Bravefile) (err : GoError)
  | Stat (path : String) (err : Option OsError)
  | BuildUnit (bravefile : Bravefile) (err : GoError)
  | Println (line : String)
  | Exec (service : String) (args : List String) (remote : Remote) (status : Int) (err : GoError)
  | Lstat (path : String) (fi : FileInfo) (err : GoError)
  | Push (service source target : String) (remote : Remote) (err : GoError)
  | SymlinkPush (service source target : String) (remote : Remote) (err : GoError)
  | FilePush (service source target : String) (remote : Remote) (err : GoError)
  | AddDevice (ct name : String) (config : GoMap) (remote : Remote) (err : GoError)
  | checkBackend (returns : Bool)
  | StderrPrintln (line : String)
  | Load (path : String) (result : Bravefile) (err : GoError)
  | DeleteHostImages (err : GoError)
  | InitUnit (bravefile : Bravefile) (err : GoError)
  | Postdeploy (bravefile : Bravefile) (err : GoError)
  | Fatal (msg : String)
  deriving DecidableEq, Repr

/-- The history of calls, oldest first. -/
abbrev Trace := List Event

/-- The environment of the helpers: the answer of every outside operation, as a
function of the history so far and of the call's arguments. -/
structure World where
  /-- The result of `os.UserHomeDir` (its error is dropped by every caller). -/
  UserHomeDir : String
  /-- The result of `os.Getwd` (its error is dropped by every caller). -/
  Getwd : String
  /-- The constant `shared.ImageStore`. -/
  ImageStore : String
  /-- Go `filepath.Join` of two elements. -/
  Join : String → String → String
  ImportImage : Trace → String → String → Remote → String × GoError
  LaunchFromImage : Trace → String → String → Remote → GoError
  Start : Trace → String → Remote → GoError
  Delete : Trace → String → Remote → GoError
  DeleteImage : Trace → String → Remote → GoError
  GetBravefileFromGitHub : Trace → String → Bravefile × GoError
  Stat : Trace → String → Option OsError
  /-- The method `BraveHost.BuildUnit`; it is handed a pointer, so it also gives
  back the Bravefile as it leaves it. -/
  BuildUnit : Trace → BraveHost → Bravefile → Bravefile × GoError
  Exec : Trace → String → List String → Remote → Int × GoError
  Lstat : Trace → String → FileInfo × GoError
  Push : Trace → String → String → String → Remote → GoError
  SymlinkPush : Trace → String → String → String → Remote → GoError
  FilePush : Trace → String → String → String → Remote → GoError
  AddDevice : Trace → String → String → GoMap → Remote → GoError
  /-- Whether `checkBackend` returns (`true`) or ends the process. -/
  checkBackend : Trace → Bool
  Load : Trace → Bravefile → String → Bravefile × GoError
  DeleteHostImages : Trace → GoError
  /-- The method `InitUnit` of the global `host`, applied to the globals `backend`
  and `bravefile`; the latter is a pointer and is given back. -/
  InitUnit : Trace → Bravefile → Bravefile × GoError
  /-- The method `Postdeploy` of the global `host`; `bravefile` is given back. -/
  Postdeploy : Trace → Bravefile → Bravefile × GoError

/-! ## `platform/helpers.go` -/

/-- Go `importLocal`: import the tarball of the base image, launch a unit from
it and start the unit, undoing the last step when the next one fails. -/
def importLocal (w : World) (bravefile : Bravefile) (remote : Remote) (t0 : Trace) :
    GoError × Trace :=
  let home := w.UserHomeDir
  let location := w.Join home w.ImageStore
  let path := w.Join location bravefile.Base.Image ++ ".tar.gz"
  let r := w.ImportImage t0 path bravefile.Base.Image remote
  let fingerprint := r.1
  let t1 := t0 ++ [Event.ImportImage path bravefile.Base.Image remote r.1 r.2]
  match r.2 with
  | some e => (errorsNew ("Failed to import image: " ++ e), t1)
  | none =>
    let err := w.LaunchFromImage t1 bravefile.Base.Image bravefile.PlatformService.Name remote
    let t2 := t1 ++ [Event.LaunchFromImage bravefile.Base.Image bravefile.PlatformService.Name
      remote err]
    match err with
    | some e =>
      let t3 := t2 ++ [Event.DeleteImage fingerprint remote (w.DeleteImage t2 fingerprint remote)]
      (errorsNew ("Failed to launch unit: " ++ e), t3)
    | none =>
      let err := w.Start t2 bravefile.PlatformService.Name remote
      let t3 := t2 ++ [Event.Start bravefile.PlatformService.Name remote err]
      match err with
      | some e =>
        let t4 := t3 ++ [Event.Delete bravefile.PlatformService.Name remote
          (w.Delete t3 bravefile.PlatformService.Name remote)]
        (errorsNew ("Failed to start a unit: " ++ e), t4)
      | none => (none, t3)

/-- Go `importGitHub`: fetch the Bravefile of a GitHub-hosted base image, build
it unless its tarball is already in the image store, and import it locally
under the name of the unit being deployed. -/
def importGitHub (w : World) (bravefile : Bravefile) (bh : BraveHost) (t0 : Trace) :
    GoError × Trace :=
  let home := w.UserHomeDir
  let imageLocation := w.Join home w.ImageStore
  let path := "github.com/" ++ bravefile.Base.Image
  let r := w.GetBravefileFromGitHub t0 path
  let t1 := t0 ++ [Event.GetBravefileFromGitHub path r.1 r.2]
  match r.2 with
  | some e => (some e, t1)
  | none =>
    let remoteBravefile := r.1
    let remoteServiceName :=
      remoteBravefile.PlatformService.Name ++ "-" ++ remoteBravefile.PlatformService.Version
    let statPath := w.Join imageLocation (remoteServiceName ++ ".tar.gz")
    let serr := w.Stat t1 statPath
    let t2 := t1 ++ [Event.Stat statPath serr]
    let finish := fun (remoteBravefile : Bravefile) (t : Trace) =>
      let remoteBravefile := { remoteBravefile with Base.Image := remoteServiceName }
      let remoteBravefile :=
        { remoteBravefile with PlatformService.Name := bravefile.PlatformService.Name }
      importLocal w remoteBravefile bh.Remote t
    if IsNotExist serr then
      let b := w.BuildUnit t2 bh remoteBravefile
      let t3 := t2 ++ [Event.BuildUnit remoteBravefile b.2]
      match b.2 with
      | some e => (some e, t3)
      | none => finish b.1 t3
    else
      let t3 := t2 ++ [Event.Println
        ("Found local image " ++ remoteServiceName ++ ". Skipping GitHub build")]
      finish remoteBravefile t3

/-- The `if`/`else if`/`else` chain of the loop of Go `bravefileCopy` that
pushes `source` by the kind of file `fi` says it is: the error the loop would
return with (already worded), or `none`. -/
def bravefileCopyPush (w : World) (service source target : String) (remote : Remote)
    (fi : FileInfo) (t2 : Trace) : GoError × Trace :=
  if fi.IsDir then
    let err := w.Push t2 service source target remote
    (err.bind fun e => errorsNew ("Failed to push symlink: " ++ e),
      t2 ++ [Event.Push service source target remote err])
  else if fi.Mode &&& ModeSymlink == ModeSymlink then
    let err := w.SymlinkPush t2 service source target remote
    (err.bind fun e => errorsNew ("Failed to push directory: " ++ e),
      t2 ++ [Event.SymlinkPush service source target remote err])
  else
    let err := w.FilePush t2 service source target remote
    (err.bind fun e => errorsNew ("Failed to push file: " ++ e),
      t2 ++ [Event.FilePush service source target remote err])

/-- The body of the loop of Go `bravefileCopy`, for the directive `c`: the error
it returns with, or `none` when the loop goes on to the next directive; `dir`
is the working directory read before the loop. -/
def bravefileCopyStep (w : World) (dir service : String) (remote : Remote) (c : CopyCommand)
    (t0 : Trace) : GoError × Trace :=
  let source := c.Source
  let source := dir ++ "/" ++ source
  let target := c.Target
  let r := w.Exec t0 service ["mkdir", "-p", target] remote
  let t1 := t0 ++ [Event.Exec service ["mkdir", "-p", target] remote r.1 r.2]
  match r.2 with
  | some e => (errorsNew ("Failed to create target directory: " ++ e), t1)
  | none =>
    let l := w.Lstat t1 source
    let t2 := t1 ++ [Event.Lstat source l.1 l.2]
    match l.2 with
    | some e => (errorsNew ("Failed to read file " ++ source ++ ": " ++ e), t2)
    | none =>
      let fi := l.1
      match bravefileCopyPush w service source target remote fi t2 with
      | (some e, t3) => (some e, t3)
      | (none, t3) =>
        if c.Action != "" then
          let a := w.Exec t3 service ["bash", "-c", c.Action] remote
          let t4 := t3 ++ [Event.Exec service ["bash", "-c", c.Action] remote a.1 a.2]
          match a.2 with
          | some e => (errorsNew ("Failed to execute action: " ++ e), t4)
          | none => (none, t4)
        else
          (none, t3)

/-- The loop of Go `bravefileCopy` over the directives, leaving at the first
error. -/
def bravefileCopyLoop (w : World) (dir service : String) (remote : Remote) :
    List CopyCommand → Trace → GoError × Trace
  | [], t0 => (none, t0)
  | c :: rest, t0 =>
    match bravefileCopyStep w dir service remote c t0 with
    | (some e, t1) => (some e, t1)
    | (none, t1) => bravefileCopyLoop w dir service remote rest t1

/-- Go `bravefileCopy`: apply the copy directives to unit `service`. -/
def bravefileCopy (w : World) (copy : List CopyCommand) (service : String) (remote : Remote)
    (t0 : Trace) : GoError × Trace :=
  let dir := w.Getwd
  bravefileCopyLoop w dir service remote copy t0

/-- The argument vector the loop of Go `bravefileRun` builds for a directive. -/
def runArgs (c : RunCommand) : List String :=
  let command := if c.Command != "" then c.Command else ""
  let args := [command]
  let args := if c.Args.length > 0 then c.Args.foldl (fun args a => args ++ [a]) args else args
  if c.Content != "" then
    let content := c.Content
    args ++ [content]
  else
    args

/-- The loop of Go `bravefileRun`; `status` and `err` are the named results,
overwritten by every iteration. -/
def bravefileRunLoop (w : World) (service : String) (remote : Remote) :
    List RunCommand → Int → GoError → Trace → (Int × GoError) × Trace
  | [], status, err, t0 => ((status, err), t0)
  | c :: rest, _, _, t0 =>
    let args := runArgs c
    let r := w.Exec t0 service args remote
    bravefileRunLoop w service remote rest r.1 r.2
      (t0 ++ [Event.Exec service args remote r.1 r.2])

/-- Go `bravefileRun`: run the directives inside unit `service`; the named
results start as `0` and `nil`. -/
def bravefileRun (w : World) (run : List RunCommand) (service : String) (remote : Remote)
    (t0 : Trace) : (Int × GoError) × Trace :=
  bravefileRunLoop w service remote run 0 none t0

/-- Go `addIPRules`: register the proxy device of one port mapping on unit `ct`. -/
def addIPRules (w : World) (ct hostPort ctPort : String) (bh : BraveHost) (t0 : Trace) :
    GoError × Trace :=
  let name := ct ++ "proxy-" ++ hostPort ++ ":" ++ ctPort
  let config : GoMap := []
  let config := config.set "type" "proxy"
  let config := config.set "listen" ("tcp:0.0.0.0:" ++ hostPort)
  let config := config.set "connect" ("tcp:127.0.0.1:" ++ ctPort)
  let err := w.AddDevice t0 ct name config bh.Remote
  let t1 := t0 ++ [Event.AddDevice ct name config bh.Remote err]
  match err with
  | some e => (errorsNew ("failed to add proxy settings for unit " ++ e), t1)
  | none => (none, t1)

/-! ## `commands/deploy.go` -/

/-- The package-level variables of `commands` that `deploy` reads and writes:
the four flag values and the Bravefile being deployed. -/
structure Globals where
  unitConfig : String
  unitIP : String
  unitPort : String
  name : String
  bravefile : Bravefile
  deriving DecidableEq, Repr

/-- How a run of `deploy` ends: by returning, or by `log.Fatal` ending the process. -/
inductive Outcome where
  | returned
  | exited
  deriving DecidableEq, Repr

/-- The last part of Go `deploy`, from the first `host.DeleteHostImages()` on. -/
def deployHost (w : World) (bravefile : Bravefile) (t0 : Trace) : Outcome × Bravefile × Trace :=
  let err := w.DeleteHostImages t0
  let t1 := t0 ++ [Event.DeleteHostImages err]
  match err with
  | some e => (Outcome.exited, bravefile, t1 ++ [Event.Fatal e])
  | none =>
    let i := w.InitUnit t1 bravefile
    let t2 := t1 ++ [Event.InitUnit bravefile i.2]
    match i.2 with
    | some e => (Outcome.exited, i.1, t2 ++ [Event.Fatal e])
    | none =>
      let p := w.Postdeploy t2 i.1
      let t3 := t2 ++ [Event.Postdeploy i.1 p.2]
      match p.2 with
      | some e => (Outcome.exited, p.1, t3 ++ [Event.Fatal e])
      | none =>
        let err := w.DeleteHostImages t3
        let t4 := t3 ++ [Event.DeleteHostImages err]
        match err with
        | some e => (Outcome.exited, p.1, t4 ++ [Event.Fatal e])
        | none => (Outcome.returned, p.1, t4)

/-- Go `deploy`, the body of the `deploy IMAGE` command, run with the positional
arguments `args`. -/
def deploy (w : World) (g : Globals) (args : List String) (t0 : Trace) :
    Outcome × Bravefile × Trace :=
  let cb := w.checkBackend t0
  let t1 := t0 ++ [Event.checkBackend cb]
  if !cb then (Outcome.exited, g.bravefile, t1) else
  let useBravefile := false
  let bravefilePath := ""
  let err := w.Stat t1 "Bravefile"
  let t2 := t1 ++ [Event.Stat "Bravefile" err]
  let (useBravefile, bravefilePath) :=
    if err = none then (true, "Bravefile") else (useBravefile, bravefilePath)
  let (useBravefile, bravefilePath) :=
    if g.unitConfig != "" then (true, g.unitConfig) else (useBravefile, bravefilePath)
  if useBravefile then
    let l := w.Load t2 g.bravefile bravefilePath
    let t3 := t2 ++ [Event.Load bravefilePath l.1 l.2]
    match l.2 with
    | some e => (Outcome.exited, l.1, t3 ++ [Event.Fatal e])
    | none => deployHost w l.1 t3
  else
    let bravefile := { g.bravefile with PlatformService.Resources.CPU := "2" }
    let bravefile := { bravefile with PlatformService.Resources.RAM := "2GB" }
    match args with
    | [] =>
      (Outcome.returned, bravefile,
        t2 ++ [Event.StderrPrintln "Missing name - please provide image name"])
    | arg0 :: _ =>
      let bravefile := { bravefile with PlatformService.Image := arg0 }
      if g.name == "" then
        (Outcome.returned, bravefile, t2 ++ [Event.StderrPrintln "Missing Unit name"])
      else
        let bravefile := { bravefile with PlatformService.Name := g.name }
        let bravefile :=
          if g.unitIP != "" then { bravefile with PlatformService.IP := g.unitIP } else bravefile
        let ports : List String := []
        let bravefile :=
          if g.unitPort != "" then
            let ports := ports ++ [g.unitPort]
            { bravefile with PlatformService.Ports := ports }
          else bravefile
        deployHost w bravefile t2

/-! ## The interrupt goroutine of `platform/helpers.go` -/

/-- The statements of the goroutine that Go `processInterruptHandler` starts,
from the point where its receive `<-c` has returned: print a notice, delete the
image, delete the unit (both results dropped), and end the process with
`os.Exit(0)`.  The Bravefile is read through its pointer at that point.  What
leads there (the channel, `signal.Notify`, the scheduling of the goroutine
beside the pipeline) is outside this function. -/
def interruptGoroutineBody (w : World) (fingerprint : String) (bravefile : Bravefile)
    (bh : BraveHost) (t0 : Trace) : Outcome × Trace :=
  let t1 := t0 ++ [Event.Println "Interrupting build and cleaning artefacts"]
  let t2 := t1 ++ [Event.DeleteImage fingerprint bh.Remote
    (w.DeleteImage t1 fingerprint bh.Remote)]
  let t3 := t2 ++ [Event.Delete bravefile.PlatformService.Name bh.Remote
    (w.Delete t2 bravefile.PlatformService.Name bh.Remote)]
  (Outcome.exited, t3)

/-! ## Reading a trace -/

/-- The path of the tarball of image `image` in the local image store, as
`importLocal` computes it. -/
def tarballPath (w : World) (image : String) : String :=
  w.Join (w.Join w.UserHomeDir w.ImageStore) image ++ ".tar.gz"


/-- The fingerprint an event deletes, when it is a `DeleteImage` call. -/
def Event.deletedImage : Event → Option String
  | Event.DeleteImage fingerprint _ _ => some fingerprint
  | _ => none

/-- The unit an event deletes, when it is a `Delete` call. -/
def Event.deletedUnit : Event → Option String
  | Event.Delete name _ _ => some name
  | _ => none

/-- The alias an event imports an image under, when it is an `ImportImage` call. -/
def Event.importedAlias : Event → Option String
  | Event.ImportImage _ imageAlias _ _ _ => some imageAlias
  | _ => none

/-- Whether an event is a `Start` call. -/
def Event.isStart : Event → Bool
  | Event.Start _ _ _ => true
  | _ => false

/-- Whether an event is a `BuildUnit` call. -/
def Event.isBuildUnit : Event → Bool
  | Event.BuildUnit _ _ => true
  | _ => false

/-- Whether an event is an `Exec` call. -/
def Event.isExec : Event → Bool
  | Event.Exec _ _ _ _ _ => true
  | _ => false

/-- Whether an event is an `AddDevice` call. -/
def Event.isAddDevice : Event → Bool
  | Event.AddDevice _ _ _ _ _ => true
  | _ => false

/-- Whether an event is one of the host operations of `deploy`:
`DeleteHostImages`, `InitUnit` or `Postdeploy`. -/
def Event.isHostOp : Event → Bool
  | Event.DeleteHostImages _ => true
  | Event.InitUnit _ _ => true
  | Event.Postdeploy _ _ => true
  | _ => false

/-- What the outside world answered during one successful copy directive: the
exit status of `mkdir`, the file information `os.Lstat` reported for the
source, and the exit status of the post-copy action (unused without one). -/
structure CopyObs where
  mkdirStatus : Int
  info : FileInfo
  actionStatus : Int
  deriving DecidableEq, Repr

/-- The transfer the specification asks for, by the classification of the
source: `Push` for a directory, `SymlinkPush` for a symlink, `FilePush` for
anything else; the transfer succeeds. -/
def specTransfer (service source target : String) (remote : Remote) (fi : FileInfo) : Event :=
  if fi.mode &&& ModeDir ≠ 0 then Event.Push service source target remote none
  else if fi.mode &&& ModeSymlink = ModeSymlink then
    Event.SymlinkPush service source target remote none
  else Event.FilePush service source target remote none

/-- The events the specification asks of one successful copy directive: the
`mkdir -p <target>`, the classification of the source, one transfer, and then
`bash -c <action>` exactly when the action is not empty. -/
def specDirectiveEvents (dir service : String) (remote : Remote) (c : CopyCommand)
    (o : CopyObs) : List Event :=
  [Event.Exec service ["mkdir", "-p", c.Target] remote o.mkdirStatus none,
    Event.Lstat (dir ++ "/" ++ c.Source) o.info none,
    specTransfer service (dir ++ "/" ++ c.Source) c.Target remote o.info] ++
  (if c.Action = "" then []
    else [Event.Exec service ["bash", "-c", c.Action] remote o.actionStatus none])

/-- The argument vector the specification asks for a run directive: the command
name, the arguments in their order, and the inline content last when there is
one. -/
def specRunArgs (c : RunCommand) : List String :=
  [c.Command] ++ c.Args ++ (if c.Content = "" then [] else [c.Content])

/-! ## Sample worlds -/

/-- A sample remote. -/
def sampleRemote : Remote := ⟨"unix", "/var/lib/lxd/unix.socket", ""⟩

/-- A sample Bravefile: unit `web` on base image `py-1.0`. -/
def sampleBravefile : Bravefile := ⟨⟨"py-1.0"⟩, ⟨"web", "1.0", "", "", [], ⟨"", ""⟩⟩⟩

/-- A sample Bravefile as fetched from GitHub: service `py`, version `1.0`. -/
def sampleRemoteBravefile : Bravefile := ⟨⟨"alpine/edge"⟩, ⟨"py", "1.0", "", "", [], ⟨"", ""⟩⟩⟩

/-- A world in which every operation succeeds. -/
def World.quiet : World where
  UserHomeDir := "/home/u"
  Getwd := "/work"
  ImageStore := ".bravetools/images"
  Join := fun a b => a ++ "/" ++ b
  ImportImage := fun _ _ _ _ => ("fp1", none)
  LaunchFromImage := fun _ _ _ _ => none
  Start := fun _ _ _ => none
  Delete := fun _ _ _ => none
  DeleteImage := fun _ _ _ => none
  GetBravefileFromGitHub := fun _ _ => (sampleRemoteBravefile, none)
  Stat := fun _ _ => none
  BuildUnit := fun _ _ b => (b, none)
  Exec := fun _ _ _ _ => (0, none)
  Lstat := fun _ _ => (⟨0⟩, none)
  Push := fun _ _ _ _ _ => none
  SymlinkPush := fun _ _ _ _ _ => none
  FilePush := fun _ _ _ _ _ => none
  AddDevice := fun _ _ _ _ _ => none
  checkBackend := fun _ => true
  Load := fun _ b _ => (b, none)
  DeleteHostImages := fun _ => none
  InitUnit := fun _ b => (b, none)
  Postdeploy := fun _ b => (b, none)

/-- A world whose `LaunchFromImage` always fails. -/
def World.launchFails : World :=
  { World.quiet with LaunchFromImage := fun _ _ _ _ => some "no space" }

/-- A world whose `Start` always fails. -/
def World.startFails : World :=
  { World.quiet with Start := fun _ _ _ => some "timeout" }

/-- A world in which `/work/site` is a directory, `/work/current` a symlink and
every other path a regular file. -/
def World.files : World :=
  { World.quiet with
    Lstat := fun _ path =>
      if path = "/work/site" then (⟨ModeDir + 493⟩, none)
      else if path = "/work/current" then (⟨ModeSymlink + 511⟩, none)
      else (⟨420⟩, none) }

/-- Three copy directives: a directory, a symlink, and a regular file with a
post-copy action. -/
def sampleCopy : List CopyCommand :=
  [⟨"site", "/srv", ""⟩, ⟨"current", "/srv", ""⟩, ⟨"app.conf", "/etc", "chmod 600 /etc/app.conf"⟩]

/-- The trace `bravefileCopy` leaves for `sampleCopy` in `World.files`. -/
def sampleCopyTrace : Trace :=
  [Event.Exec "web" ["mkdir", "-p", "/srv"] sampleRemote 0 none,
    Event.Lstat "/work/site" ⟨ModeDir + 493⟩ none,
    Event.Push "web" "/work/site" "/srv" sampleRemote none,
    Event.Exec "web" ["mkdir", "-p", "/srv"] sampleRemote 0 none,
    Event.Lstat "/work/current" ⟨ModeSymlink + 511⟩ none,
    Event.SymlinkPush "web" "/work/current" "/srv" sampleRemote none,
    Event.Exec "web" ["mkdir", "-p", "/etc"] sampleRemote 0 none,
    Event.Lstat "/work/app.conf" ⟨420⟩ none,
    Event.FilePush "web" "/work/app.conf" "/etc" sampleRemote none,
    Event.Exec "web" ["bash", "-c", "chmod 600 /etc/app.conf"] sampleRemote 0 none]

/-- The world `World.files`, except that every push of a directory or of a
symlink fails. -/
def World.pushFails : World :=
  { World.files with
    Push := fun _ _ _ _ _ => some "permission denied"
    SymlinkPush := fun _ _ _ _ _ => some "too many links" }

/-- A world in which `Exec` fails for the command `false` only. -/
def World.execFails : World :=
  { World.quiet with
    Exec := fun _ _ args _ =>
      if args = ["false"] then (1, some "websocket: close 1006") else (0, none) }

/-- Two run directives: `false`, then `true`. -/
def sampleRun : List RunCommand := [⟨"false", [], ""⟩, ⟨"true", [], ""⟩]

/-- The package-level variables of a `deploy alpine/edge` run given no flag. -/
def sampleGlobals : Globals := ⟨"", "", "", "", ⟨⟨""⟩, ⟨"", "", "", "", [], ⟨"", ""⟩⟩⟩⟩

/-- A world whose working directory holds no Bravefile. -/
def World.noBravefile : World :=
  { World.quiet with Stat := fun _ _ => some ⟨"stat Bravefile: no such file or directory", true⟩ }

/-! ## Theorems -/

/-- C1: in `importLocal`, when `ImportImage` succeeds with fingerprint `f` and
`LaunchFromImage` then fails with error `e`, the calls made are exactly the
import, the launch and one `DeleteImage` of `f` (so `DeleteImage` is called
with exactly `f`, and `Start` and `Delete` are never called), and the error
returned is `"Failed to launch unit: "` followed by `e`. -/
theorem importLocal_launch_failure (w : World) (bravefile : Bravefile) (remote : Remote)
    (t0 : Trace) (f e : String)
    (hImport : w.ImportImage t0 (tarballPath w bravefile.Base.Image) bravefile.Base.Image remote
      = (f, none))
    (hLaunch : w.LaunchFromImage
      (t0 ++ [Event.ImportImage (tarballPath w bravefile.Base.Image) bravefile.Base.Image remote
        f none])
      bravefile.Base.Image bravefile.PlatformService.Name remote = some e) :
    ∃ (derr : GoError) (es : List Event),
      es = [Event.ImportImage (tarballPath w bravefile.Base.Image) bravefile.Base.Image remote
              f none,
            Event.LaunchFromImage bravefile.Base.Image bravefile.PlatformService.Name remote
              (some e),
            Event.DeleteImage f remote derr] ∧
      importLocal w bravefile remote t0 = (some ("Failed to launch unit: " ++ e), t0 ++ es) ∧
      es.filterMap Event.deletedImage = [f] ∧
      es.filterMap Event.deletedUnit = [] ∧
      es.filter Event.isStart = [] := by
  refine ⟨w.DeleteImage (t0 ++ [Event.ImportImage (tarballPath w bravefile.Base.Image)
      bravefile.Base.Image remote f none,
    Event.LaunchFromImage bravefile.Base.Image bravefile.PlatformService.Name remote (some e)])
    f remote, _, rfl, ?_, ?_, ?_, ?_⟩
  · simp only [tarballPath] at hImport hLaunch
    simp only [importLocal, tarballPath, hImport, hLaunch, errorsNew, List.append_assoc,
      List.cons_append, List.nil_append]
  · simp [Event.deletedImage]
  · simp [Event.deletedUnit]
  · simp [Event.isStart]

/-- Witness of C1: unit `web` in a world whose launch fails with `no space`. -/
theorem importLocal_launch_failure_witness :
    ∃ es : List Event,
      importLocal World.launchFails sampleBravefile sampleRemote [] =
        (some "Failed to launch unit: no space", es) ∧
      es.filterMap Event.deletedImage = ["fp1"] ∧
      es.filterMap Event.deletedUnit = [] ∧
      es.filter Event.isStart = [] := by
  obtain ⟨_, es, _, h1, h3, h4, h5⟩ :=
    importLocal_launch_failure World.launchFails sampleBravefile sampleRemote [] "fp1" "no space"
      rfl rfl
  exact ⟨es, h1, h3, h4, h5⟩

/-- C2: in `importLocal`, when `ImportImage` and `LaunchFromImage` succeed and
`Start` then fails with error `e`, the calls made are exactly the import, the
launch, the start and one `Delete` of the unit `bravefile.PlatformService.Name`
(so `DeleteImage` is never called and the imported fingerprint stays), and the
error returned is `"Failed to start a unit: "` followed by `e`. -/
theorem importLocal_start_failure (w : World) (bravefile : Bravefile) (remote : Remote)
    (t0 : Trace) (f e : String)
    (hImport : w.ImportImage t0 (tarballPath w bravefile.Base.Image) bravefile.Base.Image remote
      = (f, none))
    (hLaunch : w.LaunchFromImage
      (t0 ++ [Event.ImportImage (tarballPath w bravefile.Base.Image) bravefile.Base.Image remote
        f none])
      bravefile.Base.Image bravefile.PlatformService.Name remote = none)
    (hStart : w.Start
      (t0 ++ [Event.ImportImage (tarballPath w bravefile.Base.Image) bravefile.Base.Image remote
          f none,
        Event.LaunchFromImage bravefile.Base.Image bravefile.PlatformService.Name remote none])
      bravefile.PlatformService.Name remote = some e) :
    ∃ (derr : GoError) (es : List Event),
      es = [Event.ImportImage (tarballPath w bravefile.Base.Image) bravefile.Base.Image remote
              f none,
            Event.LaunchFromImage bravefile.Base.Image bravefile.PlatformService.Name remote none,
            Event.Start bravefile.PlatformService.Name remote (some e),
            Event.Delete bravefile.PlatformService.Name remote derr] ∧
      importLocal w bravefile remote t0 = (some ("Failed to start a unit: " ++ e), t0 ++ es) ∧
      es.filterMap Event.deletedUnit = [bravefile.PlatformService.Name] ∧
      es.filterMap Event.deletedImage = [] := by
  refine ⟨w.Delete (t0 ++ [Event.ImportImage (tarballPath w bravefile.Base.Image)
      bravefile.Base.Image remote f none,
    Event.LaunchFromImage bravefile.Base.Image bravefile.PlatformService.Name remote none,
    Event.Start bravefile.PlatformService.Name remote (some e)])
    bravefile.PlatformService.Name remote, _, rfl, ?_, ?_, ?_⟩
  · simp only [tarballPath, List.append_assoc, List.cons_append, List.nil_append]
      at hImport hLaunch hStart
    simp only [importLocal, tarballPath, hImport, hLaunch, hStart, errorsNew, List.append_assoc,
      List.cons_append, List.nil_append]
  · simp [Event.deletedUnit]
  · simp [Event.deletedImage]

/-- Witness of C2: unit `web` in a world whose start fails with `timeout`. -/
theorem importLocal_start_failure_witness :
    ∃ es : List Event,
      importLocal World.startFails sampleBravefile sampleRemote [] =
        (some "Failed to start a unit: timeout", es) ∧
      es.filterMap Event.deletedUnit = ["web"] ∧
      es.filterMap Event.deletedImage = [] := by
  obtain ⟨_, es, _, h1, h2, h3⟩ :=
    importLocal_start_failure World.startFails sampleBravefile sampleRemote [] "fp1" "timeout"
      rfl rfl rfl
  exact ⟨es, h1, h2, h3⟩

/-- Every run of `importLocal` extends the trace by one `ImportImage` call, under
the alias `bravefile.Base.Image`, and by no `BuildUnit` call. -/
theorem importLocal_events (w : World) (bravefile : Bravefile) (remote : Remote) (t0 : Trace) :
    ∃ es : List Event,
      (importLocal w bravefile remote t0).2 = t0 ++ es ∧
      es.filter Event.isBuildUnit = [] ∧
      es.filterMap Event.importedAlias = [bravefile.Base.Image] := by
  unfold importLocal
  simp only
  split
  · exact ⟨_, rfl, by simp [Event.isBuildUnit], by simp [Event.importedAlias]⟩
  · split
    · refine ⟨_, by simp only [List.append_assoc]; rfl, ?_, ?_⟩
      · simp [Event.isBuildUnit]
      · simp [Event.importedAlias]
    · split
      · refine ⟨_, by simp only [List.append_assoc]; rfl, ?_, ?_⟩
        · simp [Event.isBuildUnit]
        · simp [Event.importedAlias]
      · refine ⟨_, by simp only [List.append_assoc]; rfl, ?_, ?_⟩
        · simp [Event.isBuildUnit]
        · simp [Event.importedAlias]

/-- C3: in `importGitHub`, when the remote Bravefile `rb` is fetched and the
tarball `<rb name>-<rb version>.tar.gz` exists in the image store (`os.Stat`
gives no error), the run is the fetch, the stat and a notice followed by one
run of `importLocal` on `rb` with base image `<rb name>-<rb version>` and the
unit name of the local Bravefile; no `BuildUnit` call is made and exactly one
image is imported, under that base image name. -/
theorem importGitHub_cached (w : World) (bravefile rb : Bravefile) (bh : BraveHost) (t0 : Trace)
    (hFetch : w.GetBravefileFromGitHub t0 ("github.com/" ++ bravefile.Base.Image) = (rb, none))
    (hStat : w.Stat
      (t0 ++ [Event.GetBravefileFromGitHub ("github.com/" ++ bravefile.Base.Image) rb none])
      (w.Join (w.Join w.UserHomeDir w.ImageStore)
        (rb.PlatformService.Name ++ "-" ++ rb.PlatformService.Version ++ ".tar.gz")) = none) :
    importGitHub w bravefile bh t0 =
      importLocal w
        { Base := { rb.Base with
            Image := rb.PlatformService.Name ++ "-" ++ rb.PlatformService.Version },
          PlatformService := { rb.PlatformService with Name := bravefile.PlatformService.Name } }
        bh.Remote
        (t0 ++ [Event.GetBravefileFromGitHub ("github.com/" ++ bravefile.Base.Image) rb none,
          Event.Stat (w.Join (w.Join w.UserHomeDir w.ImageStore)
            (rb.PlatformService.Name ++ "-" ++ rb.PlatformService.Version ++ ".tar.gz")) none,
          Event.Println ("Found local image " ++
            (rb.PlatformService.Name ++ "-" ++ rb.PlatformService.Version) ++
            ". Skipping GitHub build")]) ∧
    ∃ es : List Event,
      (importGitHub w bravefile bh t0).2 = t0 ++ es ∧
      es.filter Event.isBuildUnit = [] ∧
      es.filterMap Event.importedAlias =
        [rb.PlatformService.Name ++ "-" ++ rb.PlatformService.Version] := by
  have key : importGitHub w bravefile bh t0 =
      importLocal w
        { Base := { rb.Base with
            Image := rb.PlatformService.Name ++ "-" ++ rb.PlatformService.Version },
          PlatformService := { rb.PlatformService with Name := bravefile.PlatformService.Name } }
        bh.Remote
        (t0 ++ [Event.GetBravefileFromGitHub ("github.com/" ++ bravefile.Base.Image) rb none,
          Event.Stat (w.Join (w.Join w.UserHomeDir w.ImageStore)
            (rb.PlatformService.Name ++ "-" ++ rb.PlatformService.Version ++ ".tar.gz")) none,
          Event.Println ("Found local image " ++
            (rb.PlatformService.Name ++ "-" ++ rb.PlatformService.Version) ++
            ". Skipping GitHub build")]) := by
    simp only [importGitHub, hFetch, hStat, IsNotExist, List.append_assoc, List.cons_append,
      List.nil_append, Bool.false_eq_true, if_false]
  refine ⟨key, ?_⟩
  obtain ⟨es, h1, h2, h3⟩ := importLocal_events w
    { Base := { rb.Base with
        Image := rb.PlatformService.Name ++ "-" ++ rb.PlatformService.Version },
      PlatformService := { rb.PlatformService with Name := bravefile.PlatformService.Name } }
    bh.Remote
    (t0 ++ [Event.GetBravefileFromGitHub ("github.com/" ++ bravefile.Base.Image) rb none,
      Event.Stat (w.Join (w.Join w.UserHomeDir w.ImageStore)
        (rb.PlatformService.Name ++ "-" ++ rb.PlatformService.Version ++ ".tar.gz")) none,
      Event.Println ("Found local image " ++
        (rb.PlatformService.Name ++ "-" ++ rb.PlatformService.Version) ++
        ". Skipping GitHub build")])
  rw [← key] at h1
  exact ⟨_, h1.trans (List.append_assoc _ _ _), by simpa [Event.isBuildUnit] using h2,
    by simpa [Event.importedAlias] using h3⟩

/-- Witness of C3: unit `web` based on the GitHub service `py` version `1.0`,
whose tarball is in the image store. -/
theorem importGitHub_cached_witness :
    ∃ es : List Event,
      (importGitHub World.quiet sampleBravefile ⟨sampleRemote⟩ []).2 = es ∧
      es.filter Event.isBuildUnit = [] ∧
      es.filterMap Event.importedAlias = ["py-1.0"] := by
  obtain ⟨_, es, h1, h2, h3⟩ :=
    importGitHub_cached World.quiet sampleBravefile sampleRemoteBravefile ⟨sampleRemote⟩ []
      rfl rfl
  exact ⟨es, h1, h2, h3⟩

/-- A push that goes through makes the one transfer the classification of the
source asks for. -/
theorem bravefileCopyPush_success (w : World) (service source target : String)
    (remote : Remote) (fi : FileInfo) (t2 t3 : Trace)
    (h : bravefileCopyPush w service source target remote fi t2 = (none, t3)) :
    t3 = t2 ++ [specTransfer service source target remote fi] := by
  unfold bravefileCopyPush at h
  unfold specTransfer
  by_cases hd : fi.IsDir = true
  · have hd2 : fi.mode &&& ModeDir ≠ 0 := by simpa [FileInfo.IsDir] using hd
    simp only [hd, if_true, Prod.mk.injEq] at h
    obtain ⟨h1, h2⟩ := h
    cases hp : w.Push t2 service source target remote with
    | some e => simp [hp, errorsNew] at h1
    | none => simp [hd2, ← h2, hp]
  · have hd2 : ¬ fi.mode &&& ModeDir ≠ 0 := by simpa [FileInfo.IsDir] using hd
    simp only [hd, if_false, Bool.false_eq_true] at h
    by_cases hs : fi.mode &&& ModeSymlink = ModeSymlink
    · simp only [FileInfo.Mode, hs, beq_self_eq_true, if_true, Prod.mk.injEq] at h
      obtain ⟨h1, h2⟩ := h
      cases hp : w.SymlinkPush t2 service source target remote with
      | some e => simp [hp, errorsNew] at h1
      | none => simp [hd2, hs, ← h2, hp]
    · have hs2 : (fi.mode &&& ModeSymlink == ModeSymlink) = false := by simpa using hs
      simp only [FileInfo.Mode, hs2, Bool.false_eq_true, if_false, Prod.mk.injEq] at h
      obtain ⟨h1, h2⟩ := h
      cases hp : w.FilePush t2 service source target remote with
      | some e => simp [hp, errorsNew] at h1
      | none => simp [hd2, hs, ← h2, hp]

/-- A successful iteration of the loop of `bravefileCopy` makes the events of
`specDirectiveEvents`, for the answers the world gave. -/
theorem bravefileCopyStep_success (w : World) (dir service : String) (remote : Remote)
    (c : CopyCommand) (t0 t1 : Trace)
    (h : bravefileCopyStep w dir service remote c t0 = (none, t1)) :
    ∃ o : CopyObs, t1 = t0 ++ specDirectiveEvents dir service remote c o := by
  unfold bravefileCopyStep at h
  simp only at h
  rcases hx : w.Exec t0 service ["mkdir", "-p", c.Target] remote with ⟨st, er⟩
  simp only [hx] at h
  cases er with
  | some e => simp [errorsNew] at h
  | none =>
    simp only at h
    rcases hl : w.Lstat (t0 ++ [Event.Exec service ["mkdir", "-p", c.Target] remote st none])
      (dir ++ "/" ++ c.Source) with ⟨fi, le⟩
    simp only [hl] at h
    cases le with
    | some e => simp [errorsNew] at h
    | none =>
      simp only at h
      rcases hp : bravefileCopyPush w service (dir ++ "/" ++ c.Source) c.Target remote fi
        (t0 ++ [Event.Exec service ["mkdir", "-p", c.Target] remote st none] ++
          [Event.Lstat (dir ++ "/" ++ c.Source) fi none]) with ⟨pe, t3⟩
      simp only [hp] at h
      cases pe with
      | some e => simp at h
      | none =>
        simp only at h
        have ht3 := bravefileCopyPush_success w service _ _ remote fi _ t3 hp
        by_cases ha : c.Action = ""
        · simp only [ha, bne_self_eq_false, Bool.false_eq_true, if_false, Prod.mk.injEq,
            true_and] at h
          refine ⟨⟨st, fi, 0⟩, ?_⟩
          simp [specDirectiveEvents, ha, ← h, ht3]
        · have ha2 : (c.Action != "") = true := by simpa using ha
          simp only [ha2, if_true] at h
          rcases hq : w.Exec t3 service ["bash", "-c", c.Action] remote with ⟨ast, aer⟩
          simp only [hq] at h
          cases aer with
          | some e => simp [errorsNew] at h
          | none =>
            simp only [Prod.mk.injEq, true_and] at h
            refine ⟨⟨st, fi, ast⟩, ?_⟩
            simp [specDirectiveEvents, ha, ← h, ht3]

/-- A successful run of the loop of `bravefileCopy` makes, directive by directive
and in the order of the list, the events of `specDirectiveEvents`. -/
theorem bravefileCopyLoop_success (w : World) (dir service : String) (remote : Remote) :
    ∀ (copy : List CopyCommand) (t0 t1 : Trace),
      bravefileCopyLoop w dir service remote copy t0 = (none, t1) →
      ∃ obs : List CopyObs, obs.length = copy.length ∧
        t1 = t0 ++ (List.zipWith (specDirectiveEvents dir service remote) copy obs).flatten
  | [], t0, t1, h => by
    simp only [bravefileCopyLoop, Prod.mk.injEq, true_and] at h
    exact ⟨[], rfl, by simp [h]⟩
  | c :: rest, t0, t1, h => by
    rw [bravefileCopyLoop] at h
    rcases hs : bravefileCopyStep w dir service remote c t0 with ⟨se, t2⟩
    simp only [hs] at h
    cases se with
    | some e => simp at h
    | none =>
      simp only at h
      obtain ⟨o, ho⟩ := bravefileCopyStep_success w dir service remote c t0 t2 hs
      obtain ⟨obs, hlen, hobs⟩ := bravefileCopyLoop_success w dir service remote rest t2 t1 h
      refine ⟨o :: obs, by simp [hlen], ?_⟩
      simp [hobs, ho, List.append_assoc]

/-- C4: in `bravefileCopy`, when every step of every directive succeeds (the
function returns `nil`), the calls made are, directive by directive in the
declared order: `mkdir -p <target>` inside the unit, the classification of the
source, exactly one transfer chosen by it (`Push` for a directory,
`SymlinkPush` for a symlink, `FilePush` otherwise), and then `bash -c <action>`
exactly when the action is not empty. -/
theorem bravefileCopy_success (w : World) (copy : List CopyCommand) (service : String)
    (remote : Remote) (t0 t1 : Trace)
    (h : bravefileCopy w copy service remote t0 = (none, t1)) :
    ∃ obs : List CopyObs, obs.length = copy.length ∧
      t1 = t0 ++ (List.zipWith (specDirectiveEvents w.Getwd service remote) copy obs).flatten :=
  bravefileCopyLoop_success w w.Getwd service remote copy t0 t1 h

/-- Witness of C4: a directory, a symlink and a regular file with an action. -/
theorem bravefileCopy_success_witness :
    bravefileCopy World.files sampleCopy "web" sampleRemote [] = (none, sampleCopyTrace) ∧
    ∃ obs : List CopyObs, obs.length = 3 ∧
      sampleCopyTrace =
        (List.zipWith (specDirectiveEvents "/work" "web" sampleRemote) sampleCopy obs).flatten :=
  ⟨by decide, bravefileCopy_success World.files sampleCopy "web" sampleRemote [] sampleCopyTrace
    (by decide)⟩

/-- C5: `bravefileCopy` at a directory whose push fails, and at a symlink whose
push fails: the function returns at once, but the directory failure is worded
`Failed to push symlink: ...` and the symlink failure `Failed to push
directory: ...`, the two messages being exchanged. -/
theorem bravefileCopy_push_messages_swapped :
    bravefileCopy World.pushFails [⟨"site", "/srv", ""⟩, ⟨"app.conf", "/etc", ""⟩] "web"
        sampleRemote [] =
      (some "Failed to push symlink: permission denied",
        [Event.Exec "web" ["mkdir", "-p", "/srv"] sampleRemote 0 none,
          Event.Lstat "/work/site" ⟨ModeDir + 493⟩ none,
          Event.Push "web" "/work/site" "/srv" sampleRemote (some "permission denied")]) ∧
    bravefileCopy World.pushFails [⟨"current", "/srv", ""⟩, ⟨"app.conf", "/etc", ""⟩] "web"
        sampleRemote [] =
      (some "Failed to push directory: too many links",
        [Event.Exec "web" ["mkdir", "-p", "/srv"] sampleRemote 0 none,
          Event.Lstat "/work/current" ⟨ModeSymlink + 511⟩ none,
          Event.SymlinkPush "web" "/work/current" "/srv" sampleRemote
            (some "too many links")]) := by
  constructor <;> decide

/-- The loop of `bravefileRun` over a list with one more directive at its end:
the earlier directives run first, then the last one, whose answer is the
result. -/
theorem bravefileRunLoop_append (w : World) (service : String) (remote : Remote)
    (c : RunCommand) :
    ∀ (init : List RunCommand) (status : Int) (err : GoError) (t0 : Trace),
      bravefileRunLoop w service remote (init ++ [c]) status err t0 =
        (w.Exec (bravefileRunLoop w service remote init status err t0).2 service (runArgs c)
            remote,
          (bravefileRunLoop w service remote init status err t0).2 ++
            [Event.Exec service (runArgs c) remote
              (w.Exec (bravefileRunLoop w service remote init status err t0).2 service
                (runArgs c) remote).1
              (w.Exec (bravefileRunLoop w service remote init status err t0).2 service
                (runArgs c) remote).2])
  | [], status, err, t0 => by simp [bravefileRunLoop]
  | d :: init, status, err, t0 => by
    simp only [List.cons_append, bravefileRunLoop]
    exact bravefileRunLoop_append w service remote c init _ _ _

/-- C6: `bravefileRun` on the empty list returns status `0` and a `nil` error
and leaves the trace as it was (no `Exec` call); on a list ending in the
directive `c`, it runs the earlier directives, calls `Exec` for `c` last, and
returns exactly the status and error that this last call gave. -/
theorem bravefileRun_last_status (w : World) (init : List RunCommand) (c : RunCommand)
    (service : String) (remote : Remote) (t0 : Trace) :
    bravefileRun w [] service remote t0 = ((0, none), t0) ∧
    bravefileRun w (init ++ [c]) service remote t0 =
      (w.Exec (bravefileRun w init service remote t0).2 service (runArgs c) remote,
        (bravefileRun w init service remote t0).2 ++
          [Event.Exec service (runArgs c) remote
            (w.Exec (bravefileRun w init service remote t0).2 service (runArgs c) remote).1
            (w.Exec (bravefileRun w init service remote t0).2 service (runArgs c) remote).2]) :=
  ⟨rfl, bravefileRunLoop_append w service remote c init 0 none t0⟩

/-- C7: `bravefileRun` on the directives `false`, `true`, where `Exec` gives an
error for the first and succeeds for the second: the function returns status
`0` and a `nil` error, the error of the first directive being overwritten. -/
theorem bravefileRun_drops_error :
    bravefileRun World.execFails sampleRun "web" sampleRemote [] =
      ((0, none),
        [Event.Exec "web" ["false"] sampleRemote 1 (some "websocket: close 1006"),
          Event.Exec "web" ["true"] sampleRemote 0 none]) := by
  decide

/-- The argument vector `bravefileRun` builds is the one the specification
asks for. -/
theorem runArgs_eq_spec (c : RunCommand) : runArgs c = specRunArgs c := by
  have hfold : ∀ (l acc : List String), l.foldl (fun args a => args ++ [a]) acc = acc ++ l := by
    intro l
    induction l with
    | nil => intro acc; simp
    | cons a l ih => intro acc; simp [ih]
  have hcmd : (if (c.Command != "") = true then c.Command else "") = c.Command := by
    by_cases h : c.Command = ""
    · simp [h]
    · simp [h]
  unfold runArgs specRunArgs
  simp only [hcmd, hfold]
  by_cases hl : c.Args.length > 0
  · by_cases hc : c.Content = ""
    · simp [hl, hc]
    · simp [hl, hc]
  · have hnil : c.Args = [] := by
      cases hargs : c.Args with
      | nil => rfl
      | cons a l => simp [hargs] at hl
    by_cases hc : c.Content = ""
    · simp [hnil, hc]
    · simp [hnil, hc]

/-- The loop of `bravefileRun` calls `Exec` once per directive, in order. -/
theorem bravefileRunLoop_calls (w : World) (service : String) (remote : Remote) :
    ∀ (run : List RunCommand) (status : Int) (err : GoError) (t0 : Trace),
      ∃ rs : List (Int × GoError), rs.length = run.length ∧
        (bravefileRunLoop w service remote run status err t0).2 =
          t0 ++ List.zipWith
            (fun c r => Event.Exec service (specRunArgs c) remote r.1 r.2) run rs
  | [], status, err, t0 => ⟨[], rfl, by simp [bravefileRunLoop]⟩
  | c :: rest, status, err, t0 => by
    obtain ⟨rs, hlen, hrs⟩ := bravefileRunLoop_calls w service remote rest
      (w.Exec t0 service (runArgs c) remote).1 (w.Exec t0 service (runArgs c) remote).2
      (t0 ++ [Event.Exec service (runArgs c) remote (w.Exec t0 service (runArgs c) remote).1
        (w.Exec t0 service (runArgs c) remote).2])
    refine ⟨w.Exec t0 service (runArgs c) remote :: rs, by simp [hlen], ?_⟩
    rw [runArgs_eq_spec] at hrs
    simp only [bravefileRunLoop, runArgs_eq_spec, hrs, List.zipWith_cons_cons, List.append_assoc,
      List.singleton_append]

/-- C8: the calls `bravefileRun` makes are exactly one `Exec` per run directive,
in the declared order, each on the argument vector `[Command] ++ Args ++`
(`[Content]` when the content is not empty): `rs` lists what the calls
returned. -/
theorem bravefileRun_calls (w : World) (run : List RunCommand) (service : String)
    (remote : Remote) (t0 : Trace) :
    ∃ rs : List (Int × GoError), rs.length = run.length ∧
      (bravefileRun w run service remote t0).2 =
        t0 ++ List.zipWith
          (fun c r => Event.Exec service
            ([c.Command] ++ c.Args ++ (if c.Content = "" then [] else [c.Content]))
            remote r.1 r.2) run rs :=
  bravefileRunLoop_calls w service remote run 0 none t0

/-- C9: `addIPRules` makes exactly one call, an `AddDevice` on unit `ct`, with
the device name `ct ++ "proxy-" ++ hostPort ++ ":" ++ ctPort` and the config
`type: proxy`, `listen: tcp:0.0.0.0:<hostPort>`, `connect:
tcp:127.0.0.1:<ctPort>`; for unit `web` and the mapping `8080:80` the name is
`webproxy-8080:80`, in every world and after every history. -/
theorem addIPRules_device (w : World) (ct hostPort ctPort : String) (bh : BraveHost)
    (t0 : Trace) :
    (∃ err : GoError, (addIPRules w ct hostPort ctPort bh t0).2 =
      t0 ++ [Event.AddDevice ct (ct ++ "proxy-" ++ hostPort ++ ":" ++ ctPort)
        [("type", "proxy"), ("listen", "tcp:0.0.0.0:" ++ hostPort),
          ("connect", "tcp:127.0.0.1:" ++ ctPort)] bh.Remote err]) ∧
    (∃ err : GoError, (addIPRules w "web" "8080" "80" bh t0).2 =
      t0 ++ [Event.AddDevice "web" "webproxy-8080:80"
        [("type", "proxy"), ("listen", "tcp:0.0.0.0:8080"), ("connect", "tcp:127.0.0.1:80")]
        bh.Remote err]) := by
  have hcfg : ∀ a b : String,
      GoMap.set (GoMap.set (GoMap.set [] "type" "proxy") "listen" a) "connect" b =
        [("type", "proxy"), ("listen", a), ("connect", b)] := by
    intro a b
    simp [GoMap.set]
  have main : ∀ ct hostPort ctPort : String,
      ∃ err : GoError, (addIPRules w ct hostPort ctPort bh t0).2 =
        t0 ++ [Event.AddDevice ct (ct ++ "proxy-" ++ hostPort ++ ":" ++ ctPort)
          [("type", "proxy"), ("listen", "tcp:0.0.0.0:" ++ hostPort),
            ("connect", "tcp:127.0.0.1:" ++ ctPort)] bh.Remote err] := by
    intro ct hostPort ctPort
    refine ⟨w.AddDevice t0 ct (ct ++ "proxy-" ++ hostPort ++ ":" ++ ctPort)
      [("type", "proxy"), ("listen", "tcp:0.0.0.0:" ++ hostPort),
        ("connect", "tcp:127.0.0.1:" ++ ctPort)] bh.Remote, ?_⟩
    unfold addIPRules
    simp only [hcfg]
    split <;> rfl
  exact ⟨main ct hostPort ctPort, main "web" "8080" "80"⟩

/-- C10: in `deploy`, once the backend check has passed, when `os.Stat` finds no
`Bravefile` in the working directory and `--config` is empty, a missing `IMAGE`
argument or an empty `--name` makes `deploy` print one usage line on standard
error and return: the calls made are the backend check, the `Stat` and the
print, so `DeleteHostImages`, `InitUnit` and `Postdeploy` are never called. -/
theorem deploy_usage_error (w : World) (g : Globals) (args : List String) (t0 : Trace)
    (oe : OsError)
    (hBackend : w.checkBackend t0 = true)
    (hStat : w.Stat (t0 ++ [Event.checkBackend true]) "Bravefile" = some oe)
    (hConfig : g.unitConfig = "")
    (hMissing : args = [] ∨ g.name = "") :
    ∃ (bf : Bravefile) (msg : String) (es : List Event),
      deploy w g args t0 = (Outcome.returned, bf, t0 ++ es) ∧
      es = [Event.checkBackend true, Event.Stat "Bravefile" (some oe),
        Event.StderrPrintln msg] ∧
      (msg = "Missing name - please provide image name" ∨ msg = "Missing Unit name") ∧
      es.filter Event.isHostOp = [] := by
  cases args with
  | nil =>
    refine ⟨(deploy w g [] t0).2.1, "Missing name - please provide image name", _, ?_, rfl,
      Or.inl rfl, ?_⟩
    · simp [deploy, hBackend, hStat, hConfig]
    · simp [Event.isHostOp]
  | cons arg0 rest =>
    have hname : g.name = "" := by
      rcases hMissing with h | h
      · simp at h
      · exact h
    refine ⟨(deploy w g (arg0 :: rest) t0).2.1, "Missing Unit name", _, ?_, rfl, Or.inr rfl, ?_⟩
    · simp [deploy, hBackend, hStat, hConfig, hname]
    · simp [Event.isHostOp]

/-- Witness of C10: `deploy` with no argument and no flag, in a directory
without a Bravefile. -/
theorem deploy_usage_error_witness :
    ∃ (bf : Bravefile) (es : List Event),
      deploy World.noBravefile sampleGlobals [] [] = (Outcome.returned, bf, es) ∧
      es.filter Event.isHostOp = [] := by
  obtain ⟨bf, _, es, h1, _, _, h2⟩ :=
    deploy_usage_error World.noBravefile sampleGlobals [] []
      ⟨"stat Bravefile: no such file or directory", true⟩ rfl rfl rfl (Or.inl rfl)
  exact ⟨bf, es, h1, h2⟩

/-- Run on its own after any history, and whatever `DeleteImage` answers, the
body of the interrupt goroutine makes exactly three calls before it ends the
process: the notice, `DeleteImage` of the fingerprint, then `Delete` of the
unit `bravefile.PlatformService.Name`.  This is the sequential part only: it
says nothing of whether or when a signal reaches the goroutine, nor of what the
pipeline does meanwhile. -/
theorem interruptGoroutineBody_calls (w : World) (fingerprint : String) (bravefile : Bravefile)
    (bh : BraveHost) (t0 : Trace) :
    ∃ (derr uerr : GoError) (es : List Event),
      es = [Event.Println "Interrupting build and cleaning artefacts",
        Event.DeleteImage fingerprint bh.Remote derr,
        Event.Delete bravefile.PlatformService.Name bh.Remote uerr] ∧
      interruptGoroutineBody w fingerprint bravefile bh t0 = (Outcome.exited, t0 ++ es) ∧
      es.filterMap Event.deletedImage = [fingerprint] ∧
      es.filterMap Event.deletedUnit = [bravefile.PlatformService.Name] := by
  refine ⟨w.DeleteImage (t0 ++ [Event.Println "Interrupting build and cleaning artefacts"])
      fingerprint bh.Remote,
    w.Delete (t0 ++ [Event.Println "Interrupting build and cleaning artefacts"] ++
      [Event.DeleteImage fingerprint bh.Remote
        (w.DeleteImage (t0 ++ [Event.Println "Interrupting build and cleaning artefacts"])
          fingerprint bh.Remote)]) bravefile.PlatformService.Name bh.Remote,
    _, rfl, ?_, ?_, ?_⟩
  · simp only [interruptGoroutineBody, List.append_assoc, List.cons_append, List.nil_append]
  · simp [Event.deletedImage]
  · simp [Event.deletedUnit]

end Bravetools
